import Mathlib

/-!
# Verification of `bin/check_thresholds.py`

A shallow embedding of the FastQC threshold-checking pipeline:

* Python `str` is modelled as `List Char` (`PyStr`);
* Python `int` as `Int`; Python `float` as `ℚ` (the program only parses
  decimal tokens and compares/maximises them, so rationals represent the
  comparison logic exactly);
* raised exceptions as `Except PyError`;
* the filesystem seen by `load_thresholds` as a partial map from paths to
  already-parsed INI files;
* a FastQC `.zip` archive as its list of named entries, each entry being the
  decoded lines of its content.

Definitions follow the Python source function by function.
-/

/-- Python strings, modelled as lists of characters. -/
abbrev PyStr := List Char

/-- `str.strip()`: remove leading and trailing whitespace. -/
def pyStrip (s : PyStr) : PyStr :=
  ((s.dropWhile Char.isWhitespace).reverse.dropWhile Char.isWhitespace).reverse

/-- `str.startswith(pre)`. -/
def pyStartsWith (s pre : PyStr) : Bool :=
  pre.isPrefixOf s

/-- `str.endswith(suf)`. -/
def pyEndsWith (s suf : PyStr) : Bool :=
  suf.isSuffixOf s

/-- `line.split("\t")`: split on every tab, keeping empty fields. -/
def splitTab : PyStr → List PyStr
  | [] => [[]]
  | c :: rest =>
    if c = '\t' then [] :: splitTab rest
    else
      match splitTab rest with
      | [] => [[c]]
      | g :: gs => (c :: g) :: gs

/-- Numeric value of a nonempty all-digit string; `none` otherwise. -/
def digitsVal? (s : PyStr) : Option Nat :=
  if !s.isEmpty && s.all Char.isDigit then
    some (s.foldl (fun a c => a * 10 + (c.toNat - 48)) 0)
  else
    none

/-- Python `int(str)`: surrounding whitespace, an optional sign, then decimal
digits.  (Underscore separators and non-decimal bases are not modelled.) -/
def pyInt? (s : PyStr) : Option Int :=
  match pyStrip s with
  | '+' :: ds => (digitsVal? ds).map Int.ofNat
  | '-' :: ds => (digitsVal? ds).map fun n => -(n : Int)
  | ds => (digitsVal? ds).map Int.ofNat

/-- Split a string at the first character satisfying `p`; the second component
is `none` when no such character occurs. -/
def splitOnce (p : Char → Bool) : PyStr → PyStr × Option PyStr
  | [] => ([], none)
  | c :: rest =>
    if p c then ([], some rest)
    else
      let r := splitOnce p rest
      (c :: r.1, r.2)

/-- Decimal mantissa `digits[.digits]` (at least one digit overall), as the
pair (digit value, number of fraction digits). -/
def mantissaParts? (s : PyStr) : Option (Nat × Nat) :=
  match splitOnce (fun c => c == '.') s with
  | (ip, none) => (digitsVal? ip).map fun n => (n, 0)
  | (ip, some fp) => (digitsVal? (ip ++ fp)).map fun n => (n, fp.length)

/-- An optionally signed nonempty digit string, as an integer. -/
def signedDigits? (s : PyStr) : Option Int :=
  match s with
  | '+' :: ds => (digitsVal? ds).map Int.ofNat
  | '-' :: ds => (digitsVal? ds).map fun n => -(n : Int)
  | ds => (digitsVal? ds).map Int.ofNat

/-- Unsigned part of a Python float literal: mantissa with optional
`e`/`E`-exponent, valued `digits * 10 ^ (exponent - fraction length)`.
Built with `Rat.divInt` over powers of ten so that values evaluate. -/
def pyFloatMag? (s : PyStr) : Option ℚ :=
  match splitOnce (fun c => c == 'e' || c == 'E') s with
  | (mant, none) =>
    (mantissaParts? mant).map fun p =>
      Rat.divInt (Int.ofNat p.1) (Int.ofNat (10 ^ p.2))
  | (mant, some ex) =>
    match mantissaParts? mant, signedDigits? ex with
    | some p, some e =>
      if 0 ≤ e then
        some (Rat.divInt (Int.ofNat (p.1 * 10 ^ e.toNat)) (Int.ofNat (10 ^ p.2)))
      else
        some (Rat.divInt (Int.ofNat p.1) (Int.ofNat (10 ^ (p.2 + (-e).toNat))))
    | _, _ => none

/-- Python `float(str)` on decimal notation: surrounding whitespace, optional
sign, digits with optional fraction and exponent.  (`inf`, `nan` and
underscore separators are not modelled.) -/
def pyFloat? (s : PyStr) : Option ℚ :=
  match pyStrip s with
  | '+' :: r => pyFloatMag? r
  | '-' :: r => (pyFloatMag? r).map Rat.neg
  | r => pyFloatMag? r

/-- Python `max(a, b)` on two numbers (returns the second argument only when
it is strictly greater).  Written with an explicit comparison so that it
evaluates; `pyMax_eq_max` below identifies it with `max`. -/
def pyMax (a b : ℚ) : ℚ :=
  if a ≤ b then b else a

/-- `pathlib.PurePath.stem`: the file name without its suffix; the suffix is
the part from the last dot on, provided that dot is neither the first nor the
last character. -/
def pathStem (name : PyStr) : PyStr :=
  match ((List.range name.length).filter fun i => name.getD i ' ' == '.').getLast? with
  | some i => if 0 < i && i + 1 < name.length then name.take i else name
  | none => name

/-- Fuel-driven worker for `pyReplace`; the fuel is an upper bound on the
length of the string still to scan. -/
def pyReplaceGo : Nat → PyStr → PyStr → PyStr → PyStr
  | _, [], _, _ => []
  | 0, s, _, _ => s
  | fuel + 1, c :: rest, old, new =>
    if !old.isEmpty && old.isPrefixOf (c :: rest) then
      new ++ pyReplaceGo fuel ((c :: rest).drop old.length) old new
    else
      c :: pyReplaceGo fuel rest old new

/-- Python `str.replace(old, new)` for nonempty `old`: leftmost,
non-overlapping, every occurrence. -/
def pyReplace (s old new : PyStr) : PyStr :=
  pyReplaceGo s.length s old new

/-- Equality of `Except` values is decidable when it is for both components
(used to evaluate the embedded functions on concrete archives). -/
instance {e a : Type} [DecidableEq e] [DecidableEq a] : DecidableEq (Except e a) :=
  fun x y =>
    match x, y with
    | .ok u, .ok v =>
      if h : u = v then .isTrue (h ▸ rfl) else .isFalse fun hh => h (Except.ok.inj hh)
    | .error u, .error v =>
      if h : u = v then .isTrue (h ▸ rfl) else .isFalse fun hh => h (Except.error.inj hh)
    | .ok _, .error _ => .isFalse fun hh => Except.noConfusion hh
    | .error _, .ok _ => .isFalse fun hh => Except.noConfusion hh

/-- A raised Python exception, by kind. -/
inductive PyError where
  | fileNotFound : PyStr → PyError
  | valueError : PyStr → PyError
deriving DecidableEq, Repr

/-- The per-sample metrics record built by `parse_fastqc_zip` (a Python dict
with these fixed keys; `None` is `none`). -/
structure Metrics where
  sample : PyStr
  total_sequences : Option Int
  gc_content : Option ℚ
  pct_q30 : Option ℚ
  adapter_content_max : Option ℚ
deriving DecidableEq, Repr

/-- The thresholds dict.  `check_sample` reads each key with `dict.get`, so
every field is optional. -/
structure Thresholds where
  min_reads : Option Int
  min_pct_q30 : Option ℚ
  max_adapter_content : Option ℚ
  min_gc : Option ℚ
  max_gc : Option ℚ
deriving DecidableEq, Repr

/-- A FastQC archive: its file name (final path component) and its entries,
each entry name paired with the decoded, newline-split lines of its content. -/
structure ZipFile where
  filename : PyStr
  entries : List (PyStr × List PyStr)
deriving DecidableEq, Repr

/-- One line of the first scan of `parse_fastqc_zip` (lines 68–77): update the
pair (total_sequences, gc_content), raising `ValueError` exactly where
`int(...)` / `float(...)` would. -/
def statsLine (st : Option Int × Option ℚ) (raw : PyStr) :
    Except PyError (Option Int × Option ℚ) :=
  let line := pyStrip raw
  if pyStartsWith line ("Total Sequences".data) then
    let parts := splitTab line
    if parts.length > 1 then
      match pyInt? (parts.getD 1 []) with
      | some n => .ok (some n, st.2)
      | none => .error (.valueError ("invalid literal for int() with base 10".data))
    else
      .ok st
  else if pyStartsWith line ("%GC".data) then
    let parts := splitTab line
    if parts.length > 1 then
      match pyFloat? (parts.getD 1 []) with
      | some x => .ok (st.1, some x)
      | none => .error (.valueError ("could not convert string to float".data))
    else
      .ok st
  else
    .ok st

/-- The whole first scan: fold `statsLine` over the report lines, propagating
the first raised error. -/
def statsPass (st : Option Int × Option ℚ) :
    List PyStr → Except PyError (Option Int × Option ℚ)
  | [] => .ok st
  | raw :: rest =>
    match statsLine st raw with
    | .ok st' => statsPass st' rest
    | .error e => .error e

/-- Fold one adapter-table row into the running maximum (lines 93–98): every
tab field after the first is tried as a float; unparseable fields are skipped. -/
def lineMax (acc : ℚ) (line : PyStr) : ℚ :=
  ((splitTab line).drop 1).foldl
    (fun a v =>
      match pyFloat? v with
      | some x => pyMax a x
      | none => a)
    acc

/-- The second scan of `parse_fastqc_zip` (lines 80–98): section state machine
over the report lines, accumulating the maximal adapter value. -/
def adapterPass (inSec : Bool) (acc : ℚ) : List PyStr → ℚ
  | [] => acc
  | raw :: rest =>
    let line := pyStrip raw
    if pyStartsWith line (">>Adapter Content".data) then
      adapterPass true acc rest
    else if inSec then
      if pyStartsWith line (">>END_MODULE".data) then acc
      else if pyStartsWith line ("#".data) || line.isEmpty then
        adapterPass true acc rest
      else
        adapterPass true (lineMax acc line) rest
    else
      adapterPass false acc rest

/-- Line 62: the archive entries whose name ends with `fastqc_data.txt`, in
archive order. -/
def dataFileNames (z : ZipFile) : List PyStr :=
  (z.entries.map Prod.fst).filter fun n => pyEndsWith n ("fastqc_data.txt".data)

/-- `zf.open(name)` followed by line iteration: the lines of the entry called
`name`. -/
def entryLines (z : ZipFile) (name : PyStr) : List PyStr :=
  ((z.entries.find? fun e => e.1 == name).map Prod.snd).getD []

/-- `parse_fastqc_zip` (lines 48–101). -/
def parse_fastqc_zip (z : ZipFile) : Except PyError Metrics :=
  let base : Metrics :=
    { sample := pyReplace (pathStem z.filename) ("_fastqc".data) []
      total_sequences := none
      gc_content := none
      pct_q30 := none
      adapter_content_max := none }
  match dataFileNames z with
  | [] => .ok base
  | name :: _ =>
    let lines := entryLines z name
    match statsPass (none, none) lines with
    | .error e => .error e
    | .ok st =>
      .ok { base with
              total_sequences := st.1
              gc_content := st.2
              adapter_content_max := some (adapterPass false 0 lines) }

/-- The output of `check_sample`: the spread metrics dict plus a status and
the list of reason strings. -/
structure CheckedRecord where
  metrics : Metrics
  status : PyStr
  reasons : List PyStr
deriving DecidableEq, Repr

/-- The reads reason string (line 111). -/
def readsReason (total minReads : Int) : PyStr :=
  "total_sequences (".data ++ (toString total).data ++ ") < min_reads (".data
    ++ (toString minReads).data ++ ")".data

/-- The GC lower-bound reason string (line 118). -/
def gcLowReason (gc minGc : ℚ) : PyStr :=
  "GC% (".data ++ (toString gc).data ++ ") < min_gc (".data
    ++ (toString minGc).data ++ ")".data

/-- The GC upper-bound reason string (line 120). -/
def gcHighReason (gc maxGc : ℚ) : PyStr :=
  "GC% (".data ++ (toString gc).data ++ ") > max_gc (".data
    ++ (toString maxGc).data ++ ")".data

/-- The adapter-content reason string (lines 126–128). -/
def adapterReason (adapter maxAdapter : ℚ) : PyStr :=
  "adapter_content_max (".data ++ (toString adapter).data
    ++ ") > max_adapter_content (".data ++ (toString maxAdapter).data ++ ")".data

/-- `check_sample` (lines 104–135): four sequential checks, each appending at
most one reason; `int(...)`/`float(...)` on the already-numeric dict values
are identities and are dropped. -/
def check_sample (m : Metrics) (t : Thresholds) : CheckedRecord :=
  let reasons : List PyStr := []
  let reasons :=
    match m.total_sequences, t.min_reads with
    | some total, some mr =>
      if total < mr then reasons ++ [readsReason total mr] else reasons
    | _, _ => reasons
  let reasons :=
    match m.gc_content with
    | some gc =>
      let reasons :=
        match t.min_gc with
        | some l => if gc < l then reasons ++ [gcLowReason gc l] else reasons
        | none => reasons
      match t.max_gc with
      | some u => if gc > u then reasons ++ [gcHighReason gc u] else reasons
      | none => reasons
    | none => reasons
  let reasons :=
    match m.adapter_content_max, t.max_adapter_content with
    | some a, some mac =>
      if a > mac then reasons ++ [adapterReason a mac] else reasons
    | _, _ => reasons
  { metrics := m
    status := if reasons.isEmpty then "PASS".data else "FAIL".data
    reasons := reasons }

/-- `validate_metrics` (lines 138–146): overlay the sample name onto the
metrics, run `check_sample`, and project out `(status, reasons)`. -/
def validate_metrics (m : Metrics) (t : Thresholds) (sample_name : PyStr) :
    PyStr × List PyStr :=
  let enriched := check_sample { m with sample := sample_name } t
  (enriched.status, enriched.reasons)

/-- A parsed INI file: sections by name, each a list of key/value pairs. -/
abbrev ConfigFile := List (PyStr × List (PyStr × PyStr))

/-- `"thresholds" in cfg` / `cfg["thresholds"]`: look a section up by name. -/
def sectionOf (cfg : ConfigFile) (name : PyStr) : Option (List (PyStr × PyStr)) :=
  (cfg.find? fun s => s.1 == name).map Prod.snd

/-- Key lookup inside a section. -/
def sectionGet (sec : List (PyStr × PyStr)) (key : PyStr) : Option PyStr :=
  (sec.find? fun kv => kv.1 == key).map Prod.snd

/-- `SectionProxy.getint(key, fallback)`: the fallback covers a missing key
only; a present but malformed value raises `ValueError`. -/
def getint (sec : List (PyStr × PyStr)) (key : PyStr) (fallback : Int) :
    Except PyError Int :=
  match sectionGet sec key with
  | none => .ok fallback
  | some v =>
    match pyInt? v with
    | some n => .ok n
    | none => .error (.valueError ("invalid literal for int() with base 10".data))

/-- `SectionProxy.getfloat(key, fallback)`. -/
def getfloat (sec : List (PyStr × PyStr)) (key : PyStr) (fallback : ℚ) :
    Except PyError ℚ :=
  match sectionGet sec key with
  | none => .ok fallback
  | some v =>
    match pyFloat? v with
    | some x => .ok x
    | none => .error (.valueError ("could not convert string to float".data))

/-- `load_thresholds` (lines 19–45).  The filesystem is modelled as a partial
map `fs` from paths to already-parsed INI files; `fs path = none` is a
nonexistent path. -/
def load_thresholds (config_path : PyStr) (fs : PyStr → Option ConfigFile) :
    Except PyError Thresholds :=
  match fs config_path with
  | none => .error (.fileNotFound ("Config file not found: ".data ++ config_path))
  | some cfg =>
    match sectionOf cfg ("thresholds".data) with
    | none => .error (.valueError ("Missing [thresholds] section in config file".data))
    | some sec => do
      let mr ← getint sec ("min_reads".data) 10000
      let q30 ← getfloat sec ("min_pct_q30".data) 80
      let mac ← getfloat sec ("max_adapter_content".data) 5
      let mgc ← getfloat sec ("min_gc".data) 30
      let xgc ← getfloat sec ("max_gc".data) 70
      return { min_reads := some mr
               min_pct_q30 := some q30
               max_adapter_content := some mac
               min_gc := some mgc
               max_gc := some xgc }

/-- Python dict assignment `d[k] = v` on an insertion-ordered dict: replace in
place if the key exists, else append. -/
def dictSet : List (PyStr × CheckedRecord) → PyStr → CheckedRecord →
    List (PyStr × CheckedRecord)
  | [], k, v => [(k, v)]
  | (k', v') :: rest, k, v =>
    if k' == k then (k, v) :: rest else (k', v') :: dictSet rest k v

/-- The batch loop of `main` (lines 158–165): parse each archive, skip records
with an absent read count, and collect the rest into the results dict.  A
parse error propagates and aborts the run. -/
def processZips (t : Thresholds) :
    List ZipFile → List (PyStr × CheckedRecord) →
    Except PyError (List (PyStr × CheckedRecord))
  | [], res => .ok res
  | z :: rest, res =>
    match parse_fastqc_zip z with
    | .error e => .error e
    | .ok m =>
      if m.total_sequences.isNone then
        processZips t rest res
      else
        let checked := check_sample m t
        processZips t rest (dictSet res checked.metrics.sample checked)

/-! ## Claim-side definitions

Declarative counterparts, written from the spec's wording, against which the
embedded code is compared. -/

/-- Contribution of the reads check to the reasons list. -/
def readsPart (m : Metrics) (t : Thresholds) : List PyStr :=
  match m.total_sequences, t.min_reads with
  | some total, some mr => if total < mr then [readsReason total mr] else []
  | _, _ => []

/-- Contribution of the GC lower-bound check. -/
def gcLowPart (m : Metrics) (t : Thresholds) : List PyStr :=
  match m.gc_content, t.min_gc with
  | some gc, some l => if gc < l then [gcLowReason gc l] else []
  | _, _ => []

/-- Contribution of the GC upper-bound check. -/
def gcHighPart (m : Metrics) (t : Thresholds) : List PyStr :=
  match m.gc_content, t.max_gc with
  | some gc, some u => if gc > u then [gcHighReason gc u] else []
  | _, _ => []

/-- Contribution of the adapter-content check. -/
def adapterPart (m : Metrics) (t : Thresholds) : List PyStr :=
  match m.adapter_content_max, t.max_adapter_content with
  | some a, some mac => if a > mac then [adapterReason a mac] else []
  | _, _ => []

/-- A reason string produced by one of the two GC checks, recognisable by its
fixed leading template `GC% `. -/
def isGCReason (s : PyStr) : Bool :=
  s.take 4 == "GC% ".data

/-- How many GC-related reasons a reasons list carries. -/
def gcReasonCount (rs : List PyStr) : Nat :=
  rs.countP isGCReason

/-- The data rows of the adapter-content section, per the spec: the
non-comment, non-empty lines strictly between the `>>Adapter Content` marker
and `>>END_MODULE` (marker lines themselves are not data rows). -/
def adapterSectionLines (lines : List PyStr) : List PyStr :=
  let stripped := lines.map pyStrip
  let afterMarker :=
    (stripped.dropWhile fun l => !pyStartsWith l (">>Adapter Content".data)).drop 1
  (afterMarker.takeWhile fun l => !pyStartsWith l (">>END_MODULE".data)).filter
    fun l =>
      !(pyStartsWith l ("#".data) || l.isEmpty
          || pyStartsWith l (">>Adapter Content".data))

/-- The floats successfully parsed from the fields after the first of one
data row. -/
def rowFloats (l : PyStr) : List ℚ :=
  ((splitTab l).drop 1).filterMap pyFloat?

/-- Every float successfully parsed from the adapter-content section. -/
def sectionFloats (lines : List PyStr) : List ℚ :=
  (adapterSectionLines lines).flatMap rowFloats

/-- The spec's value for the adapter metric: the maximum of `0.0` and every
parsed section float. -/
def adapterSpecMax (lines : List PyStr) : ℚ :=
  (sectionFloats lines).foldl pyMax 0

/-- The claim's sample-identifier derivation: strip one trailing `suf` from
the end of `s`, changing nothing else. -/
def stripTrailingSuffix (s suf : PyStr) : PyStr :=
  if suf.isSuffixOf s then s.take (s.length - suf.length) else s

/-- Whether `pat` occurs as a contiguous subsequence of `s`. -/
def hasOcc (pat : PyStr) : PyStr → Bool
  | [] => pat.isEmpty
  | c :: rest => pat.isPrefixOf (c :: rest) || hasOcc pat rest

/-- The list of recognised threshold keys. -/
def recognizedKeys : List PyStr :=
  ["min_reads".data, "min_pct_q30".data, "max_adapter_content".data,
   "min_gc".data, "max_gc".data]

/-! ## Helper lemmas: the threshold evaluator -/

/-- `pyMax` is the lattice `max` on `ℚ`. -/
theorem pyMax_eq_max (a b : ℚ) : pyMax a b = max a b := by
  rw [pyMax, max_def]

/-- The reasons list of `check_sample` decomposes into the four check
contributions, in evaluation order. -/
theorem check_sample_reasons (m : Metrics) (t : Thresholds) :
    (check_sample m t).reasons
      = readsPart m t ++ gcLowPart m t ++ gcHighPart m t ++ adapterPart m t := by
  rcases m with ⟨s, ts, gc, q, ad⟩
  rcases t with ⟨mr, q30, mac, l, u⟩
  rcases ts with _ | total <;> rcases mr with _ | mr <;>
    rcases gc with _ | gc <;> rcases l with _ | l <;> rcases u with _ | u <;>
      rcases ad with _ | ad <;> rcases mac with _ | mac <;>
        simp only [check_sample, readsPart, gcLowPart, gcHighPart, adapterPart] <;>
          (try split_ifs) <;> simp

/-- The status field is computed from the reasons list alone. -/
theorem check_sample_status_def (m : Metrics) (t : Thresholds) :
    (check_sample m t).status
      = if (check_sample m t).reasons.isEmpty then "PASS".data else "FAIL".data := rfl

theorem readsReason_head (a b : Int) : (readsReason a b).head? = some 't' := rfl

theorem gcLowReason_head (a b : ℚ) : (gcLowReason a b).head? = some 'G' := rfl

theorem gcHighReason_head (a b : ℚ) : (gcHighReason a b).head? = some 'G' := rfl

theorem adapterReason_head (a b : ℚ) : (adapterReason a b).head? = some 'a' := rfl

theorem isGCReason_gcLow (a b : ℚ) : isGCReason (gcLowReason a b) = true := rfl

theorem isGCReason_gcHigh (a b : ℚ) : isGCReason (gcHighReason a b) = true := rfl

theorem isGCReason_reads (a b : Int) : isGCReason (readsReason a b) = false := rfl

theorem isGCReason_adapter (a b : ℚ) : isGCReason (adapterReason a b) = false := rfl

/-- The four reason templates are pairwise distinguishable by their first
character, whatever the interpolated values are. -/
theorem readsReason_ne_gcLow (a b : Int) (c d : ℚ) : readsReason a b ≠ gcLowReason c d := by
  intro h
  have h1 : (readsReason a b).head? = some 't' := rfl
  rw [h, gcLowReason_head] at h1
  exact absurd h1 (by decide)

theorem readsReason_ne_gcHigh (a b : Int) (c d : ℚ) : readsReason a b ≠ gcHighReason c d := by
  intro h
  have h1 : (readsReason a b).head? = some 't' := rfl
  rw [h, gcHighReason_head] at h1
  exact absurd h1 (by decide)

theorem readsReason_ne_adapter (a b : Int) (c d : ℚ) : readsReason a b ≠ adapterReason c d := by
  intro h
  have h1 : (readsReason a b).head? = some 't' := rfl
  rw [h, adapterReason_head] at h1
  exact absurd h1 (by decide)

theorem adapterReason_ne_gcLow (a b c d : ℚ) : adapterReason a b ≠ gcLowReason c d := by
  intro h
  have h1 : (adapterReason a b).head? = some 'a' := rfl
  rw [h, gcLowReason_head] at h1
  exact absurd h1 (by decide)

theorem adapterReason_ne_gcHigh (a b c d : ℚ) : adapterReason a b ≠ gcHighReason c d := by
  intro h
  have h1 : (adapterReason a b).head? = some 'a' := rfl
  rw [h, gcHighReason_head] at h1
  exact absurd h1 (by decide)

theorem not_mem_gcLowPart_reads (m : Metrics) (t : Thresholds) (a b : Int) :
    readsReason a b ∉ gcLowPart m t := by
  unfold gcLowPart
  rcases hg : m.gc_content with _ | g <;> rcases hl : t.min_gc with _ | l <;> simp
  exact fun _ => readsReason_ne_gcLow a b g l

theorem not_mem_gcHighPart_reads (m : Metrics) (t : Thresholds) (a b : Int) :
    readsReason a b ∉ gcHighPart m t := by
  unfold gcHighPart
  rcases hg : m.gc_content with _ | g <;> rcases hu : t.max_gc with _ | u <;> simp
  exact fun _ => readsReason_ne_gcHigh a b g u

theorem not_mem_adapterPart_reads (m : Metrics) (t : Thresholds) (a b : Int) :
    readsReason a b ∉ adapterPart m t := by
  unfold adapterPart
  rcases ha : m.adapter_content_max with _ | x <;>
    rcases hc : t.max_adapter_content with _ | y <;> simp
  exact fun _ => readsReason_ne_adapter a b x y

theorem not_mem_readsPart_adapter (m : Metrics) (t : Thresholds) (a b : ℚ) :
    adapterReason a b ∉ readsPart m t := by
  unfold readsPart
  rcases ht : m.total_sequences with _ | x <;> rcases hr : t.min_reads with _ | y <;> simp
  exact fun _ h => readsReason_ne_adapter x y a b h.symm

theorem not_mem_gcLowPart_adapter (m : Metrics) (t : Thresholds) (a b : ℚ) :
    adapterReason a b ∉ gcLowPart m t := by
  unfold gcLowPart
  rcases hg : m.gc_content with _ | g <;> rcases hl : t.min_gc with _ | l <;> simp
  exact fun _ => adapterReason_ne_gcLow a b g l

theorem not_mem_gcHighPart_adapter (m : Metrics) (t : Thresholds) (a b : ℚ) :
    adapterReason a b ∉ gcHighPart m t := by
  unfold gcHighPart
  rcases hg : m.gc_content with _ | g <;> rcases hu : t.max_gc with _ | u <;> simp
  exact fun _ => adapterReason_ne_gcHigh a b g u

theorem countP_readsPart (m : Metrics) (t : Thresholds) :
    (readsPart m t).countP isGCReason = 0 := by
  unfold readsPart
  rcases m.total_sequences with _ | x <;> rcases t.min_reads with _ | y <;> simp
  exact fun _ => isGCReason_reads x y

theorem countP_adapterPart (m : Metrics) (t : Thresholds) :
    (adapterPart m t).countP isGCReason = 0 := by
  unfold adapterPart
  rcases m.adapter_content_max with _ | x <;> rcases t.max_adapter_content with _ | y <;> simp
  exact fun _ => isGCReason_adapter x y

theorem countP_gcLowPart (m : Metrics) (t : Thresholds) (g l : ℚ)
    (hg : m.gc_content = some g) (hl : t.min_gc = some l) :
    (gcLowPart m t).countP isGCReason = if g < l then 1 else 0 := by
  unfold gcLowPart
  rw [hg, hl]
  by_cases hc : g < l <;> simp [hc, List.countP_cons, isGCReason_gcLow]

theorem countP_gcHighPart (m : Metrics) (t : Thresholds) (g u : ℚ)
    (hg : m.gc_content = some g) (hu : t.max_gc = some u) :
    (gcHighPart m t).countP isGCReason = if g > u then 1 else 0 := by
  unfold gcHighPart
  rw [hg, hu]
  by_cases hc : g > u <;> simp [hc, List.countP_cons, isGCReason_gcHigh]

/-- The number of GC reasons emitted by `check_sample`, when the GC metric and
both bounds are present. -/
theorem gcReasonCount_check (m : Metrics) (t : Thresholds) (g l u : ℚ)
    (hg : m.gc_content = some g) (hl : t.min_gc = some l) (hu : t.max_gc = some u) :
    gcReasonCount (check_sample m t).reasons
      = (if g < l then 1 else 0) + (if g > u then 1 else 0) := by
  unfold gcReasonCount
  rw [check_sample_reasons]
  rw [List.countP_append, List.countP_append, List.countP_append]
  rw [countP_readsPart, countP_adapterPart,
    countP_gcLowPart m t g l hg hl, countP_gcHighPart m t g u hg hu]
  omega

/-! ## Claim theorems: the threshold evaluator -/

/-- C2: `check_sample` emits the reads reason iff `total_sequences` and
`min_reads` are both present with `total_sequences < min_reads` (strict;
equality passes), and emits the adapter reason iff `adapter_content_max` and
`max_adapter_content` are both present with
`adapter_content_max > max_adapter_content` (strict); whenever the metric or
the threshold of either check is absent, that check contributes no reason. -/
theorem C2_reads_and_adapter_checks (m : Metrics) (t : Thresholds) :
    (∀ total mr, m.total_sequences = some total → t.min_reads = some mr →
        (readsReason total mr ∈ (check_sample m t).reasons ↔ total < mr)) ∧
    (m.total_sequences = none ∨ t.min_reads = none →
        ∀ a b, readsReason a b ∉ (check_sample m t).reasons) ∧
    (∀ ad mac, m.adapter_content_max = some ad → t.max_adapter_content = some mac →
        (adapterReason ad mac ∈ (check_sample m t).reasons ↔ ad > mac)) ∧
    (m.adapter_content_max = none ∨ t.max_adapter_content = none →
        ∀ a b, adapterReason a b ∉ (check_sample m t).reasons) := by
  refine ⟨?_, ?_, ?_, ?_⟩
  · intro total mr hm ht
    rw [check_sample_reasons]
    simp only [List.mem_append]
    constructor
    · rintro (((h | h) | h) | h)
      · unfold readsPart at h
        rw [hm, ht] at h
        by_cases hlt : total < mr
        · exact hlt
        · simp [hlt] at h
      · exact absurd h (not_mem_gcLowPart_reads m t total mr)
      · exact absurd h (not_mem_gcHighPart_reads m t total mr)
      · exact absurd h (not_mem_adapterPart_reads m t total mr)
    · intro hlt
      refine Or.inl (Or.inl (Or.inl ?_))
      unfold readsPart
      rw [hm, ht]
      simp [hlt]
  · intro habs a b
    rw [check_sample_reasons]
    simp only [List.mem_append]
    rintro (((h | h) | h) | h)
    · unfold readsPart at h
      rcases habs with hm | ht
      · rw [hm] at h; simp at h
      · rw [ht] at h
        rcases m.total_sequences with _ | x <;> simp at h
    · exact absurd h (not_mem_gcLowPart_reads m t a b)
    · exact absurd h (not_mem_gcHighPart_reads m t a b)
    · exact absurd h (not_mem_adapterPart_reads m t a b)
  · intro ad mac hm ht
    rw [check_sample_reasons]
    simp only [List.mem_append]
    constructor
    · rintro (((h | h) | h) | h)
      · exact absurd h (not_mem_readsPart_adapter m t ad mac)
      · exact absurd h (not_mem_gcLowPart_adapter m t ad mac)
      · exact absurd h (not_mem_gcHighPart_adapter m t ad mac)
      · unfold adapterPart at h
        rw [hm, ht] at h
        by_cases hlt : ad > mac
        · exact hlt
        · simp [hlt] at h
    · intro hlt
      refine Or.inr ?_
      unfold adapterPart
      rw [hm, ht]
      simp [hlt]
  · intro habs a b
    rw [check_sample_reasons]
    simp only [List.mem_append]
    rintro (((h | h) | h) | h)
    · exact absurd h (not_mem_readsPart_adapter m t a b)
    · exact absurd h (not_mem_gcLowPart_adapter m t a b)
    · exact absurd h (not_mem_gcHighPart_adapter m t a b)
    · unfold adapterPart at h
      rcases habs with hm | ht
      · rw [hm] at h; simp at h
      · rw [ht] at h
        rcases m.adapter_content_max with _ | x <;> simp at h

/-- Witness for C2 at a concrete record: a sample with 5 reads against
`min_reads = 10` gets the reads reason, and adapter peak 7 against maximum 3
gets the adapter reason. -/
theorem C2_witness :
    readsReason 5 10 ∈ (check_sample ⟨"s".data, some 5, none, none, some 7⟩
        ⟨some 10, none, some 3, none, none⟩).reasons ∧
    adapterReason 7 3 ∈ (check_sample ⟨"s".data, some 5, none, none, some 7⟩
        ⟨some 10, none, some 3, none, none⟩).reasons := by
  have h := C2_reads_and_adapter_checks ⟨"s".data, some 5, none, none, some 7⟩
    ⟨some 10, none, some 3, none, none⟩
  exact ⟨(h.1 5 10 rfl rfl).mpr (by norm_num),
    (h.2.2.1 7 3 rfl rfl).mpr (by norm_num)⟩

/-- C4: the verdict's status is PASS iff its reasons list is empty (otherwise
FAIL), and the reasons list is exactly the concatenation of the four check
contributions in the fixed order reads, GC-lower, GC-upper, adapter. -/
theorem C4_status_and_order (m : Metrics) (t : Thresholds) :
    ((check_sample m t).status = "PASS".data ↔ (check_sample m t).reasons = []) ∧
    (check_sample m t).reasons
      = readsPart m t ++ gcLowPart m t ++ gcHighPart m t ++ adapterPart m t := by
  refine ⟨?_, check_sample_reasons m t⟩
  rw [check_sample_status_def]
  rcases h : (check_sample m t).reasons with _ | ⟨r, rs⟩
  · simp
  · simp only [List.isEmpty_cons, Bool.false_eq_true, if_false]
    constructor
    · intro hh; exact absurd hh (by decide)
    · intro hh; exact absurd hh (by simp)

/-- C5: with the GC metric and both bounds present, no GC reason is emitted
iff `min_gc ≤ gc ≤ max_gc`; exactly one GC reason iff exactly one of
`gc < min_gc` or `gc > max_gc` holds; and when `min_gc > max_gc` a single
value can produce both GC reasons — the evaluator does not reject such a
configuration. -/
theorem C5_gc_checks_independent (m : Metrics) (t : Thresholds) (g l u : ℚ)
    (hg : m.gc_content = some g) (hl : t.min_gc = some l) (hu : t.max_gc = some u) :
    (gcReasonCount (check_sample m t).reasons = 0 ↔ l ≤ g ∧ g ≤ u) ∧
    (gcReasonCount (check_sample m t).reasons = 1 ↔
        ((g < l ∧ ¬g > u) ∨ (g > u ∧ ¬g < l))) ∧
    (l > u → ∃ g', gcReasonCount
        (check_sample { m with gc_content := some g' } t).reasons = 2) := by
  have hc := gcReasonCount_check m t g l u hg hl hu
  refine ⟨?_, ?_, ?_⟩
  · rw [hc]
    by_cases h1 : g < l <;> by_cases h2 : g > u
    · rw [if_pos h1, if_pos h2]
      exact iff_of_false (by omega) fun hh => absurd h1 (not_lt.mpr hh.1)
    · rw [if_pos h1, if_neg h2]
      exact iff_of_false (by omega) fun hh => absurd h1 (not_lt.mpr hh.1)
    · rw [if_neg h1, if_pos h2]
      exact iff_of_false (by omega) fun hh => absurd h2 (not_lt.mpr hh.2)
    · rw [if_neg h1, if_neg h2]
      exact iff_of_true rfl ⟨not_lt.mp h1, not_lt.mp h2⟩
  · rw [hc]
    by_cases h1 : g < l <;> by_cases h2 : g > u
    · rw [if_pos h1, if_pos h2]
      refine iff_of_false (by omega) fun hh => ?_
      rcases hh with ⟨_, hnu⟩ | ⟨_, hnl⟩
      · exact absurd h2 hnu
      · exact absurd h1 hnl
    · rw [if_pos h1, if_neg h2]
      exact iff_of_true rfl (Or.inl ⟨h1, h2⟩)
    · rw [if_neg h1, if_pos h2]
      exact iff_of_true rfl (Or.inr ⟨h2, h1⟩)
    · rw [if_neg h1, if_neg h2]
      refine iff_of_false (by omega) fun hh => ?_
      rcases hh with ⟨hl', _⟩ | ⟨hu', _⟩
      · exact absurd hl' h1
      · exact absurd hu' h2
  · intro hul
    refine ⟨(l + u) / 2, ?_⟩
    rw [gcReasonCount_check _ t ((l + u) / 2) l u rfl hl hu]
    have c1 : (l + u) / 2 < l := by linarith
    have c2 : (l + u) / 2 > u := by linarith
    rw [if_pos c1, if_pos c2]

/-- Witness for C5 at a concrete record: GC 50 within bounds [30, 70] emits
no GC reason. -/
theorem C5_witness :
    gcReasonCount (check_sample ⟨"s".data, none, some 50, none, none⟩
        ⟨none, none, none, some 30, some 70⟩).reasons = 0 := by
  exact (C5_gc_checks_independent ⟨"s".data, none, some 50, none, none⟩
    ⟨none, none, none, some 30, some 70⟩ 50 30 70 rfl rfl rfl).1.mpr (by norm_num)

/-- C10: `validate_metrics` returns exactly the `(status, reasons)` pair of
the record produced by `check_sample` on the same metrics with the sample
field set to the given name — the two evaluation entry points never
disagree. -/
theorem C10_validate_refines_check (m : Metrics) (t : Thresholds) (name : PyStr) :
    validate_metrics m t name
      = ((check_sample { m with sample := name } t).status,
         (check_sample { m with sample := name } t).reasons) := rfl

/-! ## Helper lemmas: the report parser -/

/-- If `p` is a prefix of `l` and `p`, `q` differ within their first `n`
characters, `q` is not a prefix of `l`. -/
theorem not_prefix_of_prefix_diff (l p q : PyStr) (n : Nat)
    (hp : p.isPrefixOf l = true) (hlp : n ≤ p.length) (hlq : n ≤ q.length)
    (hne : p.take n ≠ q.take n) : q.isPrefixOf l = false := by
  by_contra hq
  rw [Bool.not_eq_false] at hq
  have h1 := List.prefix_iff_eq_take.mp (List.isPrefixOf_iff_prefix.mp hp)
  have h2 := List.prefix_iff_eq_take.mp (List.isPrefixOf_iff_prefix.mp hq)
  apply hne
  rw [h1, h2, List.take_take, List.take_take,
    Nat.min_eq_left hlp, Nat.min_eq_left hlq]

/-- A `>>Adapter Content` marker line is never an `>>END_MODULE` line. -/
theorem marker_not_end (l : PyStr)
    (h : pyStartsWith l (">>Adapter Content".data) = true) :
    pyStartsWith l (">>END_MODULE".data) = false := by
  unfold pyStartsWith at h ⊢
  exact not_prefix_of_prefix_diff l _ _ 3 h (by decide) (by decide) (by decide)

/-- Folding the try-parse step of the adapter row over a field list is the
fold of `pyMax` over the successfully parsed floats. -/
theorem foldl_tryFloat (vs : List PyStr) (acc : ℚ) :
    vs.foldl (fun a v => match pyFloat? v with | some x => pyMax a x | none => a) acc
      = (vs.filterMap pyFloat?).foldl pyMax acc := by
  induction vs generalizing acc with
  | nil => rfl
  | cons v vs ih =>
    cases h : pyFloat? v <;> simp [List.foldl_cons, List.filterMap_cons, h, ih]

theorem lineMax_eq (acc : ℚ) (l : PyStr) :
    lineMax acc l = (rowFloats l).foldl pyMax acc := by
  unfold lineMax rowFloats
  exact foldl_tryFloat _ _

/-- The in-section state of the adapter scan folds the floats of the data rows
up to the first `>>END_MODULE` line. -/
theorem adapterPass_true (lines : List PyStr) (acc : ℚ) :
    adapterPass true acc lines
      = (((((lines.map pyStrip).takeWhile
              fun l => !pyStartsWith l (">>END_MODULE".data)).filter
            fun l => !(pyStartsWith l ("#".data) || l.isEmpty
                || pyStartsWith l (">>Adapter Content".data))).flatMap
          rowFloats).foldl pyMax acc : ℚ) := by
  induction lines generalizing acc with
  | nil => rfl
  | cons raw rest ih =>
    by_cases hm : pyStartsWith (pyStrip raw) (">>Adapter Content".data) = true
    · have hend := marker_not_end _ hm
      simp [adapterPass, hm, hend, ih]
    · rw [Bool.not_eq_true] at hm
      by_cases he : pyStartsWith (pyStrip raw) (">>END_MODULE".data) = true
      · simp [adapterPass, hm, he]
      · rw [Bool.not_eq_true] at he
        by_cases hc : (pyStartsWith (pyStrip raw) ("#".data)
            || (pyStrip raw).isEmpty) = true
        · rcases (Bool.or_eq_true _ _).mp hc with h1 | h1
          · simp [adapterPass, hm, he, hc, h1, ih]
          · simp [adapterPass, hm, he, hc, h1, ih]
        · rw [Bool.not_eq_true] at hc
          have h1 := (Bool.or_eq_false_iff.mp hc).1
          have h2 := (Bool.or_eq_false_iff.mp hc).2
          simp [adapterPass, hm, he, hc, h1, h2, ih, lineMax_eq, List.foldl_append]

/-- The whole second scan computes the spec's section maximum. -/
theorem adapterPass_false (lines : List PyStr) (acc : ℚ) :
    adapterPass false acc lines = (sectionFloats lines).foldl pyMax acc := by
  induction lines generalizing acc with
  | nil => rfl
  | cons raw rest ih =>
    unfold sectionFloats adapterSectionLines
    by_cases hm : pyStartsWith (pyStrip raw) (">>Adapter Content".data) = true
    · simp only [adapterPass, hm, if_true, List.map_cons, List.dropWhile_cons,
        Bool.not_true, Bool.false_eq_true, if_false, List.drop_succ_cons,
        List.drop_zero]
      exact adapterPass_true rest acc
    · rw [Bool.not_eq_true] at hm
      have ih' := ih acc
      unfold sectionFloats adapterSectionLines at ih'
      simp only [adapterPass, hm, Bool.false_eq_true, if_false, List.map_cons,
        List.dropWhile_cons, Bool.not_false, if_true]
      exact ih'

/-- The first scan over concatenated line lists runs left to right,
propagating an error from the left part. -/
theorem statsPass_append (st : Option Int × Option ℚ) (xs ys : List PyStr) :
    statsPass st (xs ++ ys)
      = match statsPass st xs with
        | .ok st' => statsPass st' ys
        | .error e => .error e := by
  induction xs generalizing st with
  | nil => rfl
  | cons x xs ih =>
    cases h : statsLine st x with
    | ok st' => simp [statsPass, h, ih]
    | error e => simp [statsPass, h]

theorem pyReplaceGo_nil (fuel : Nat) (old new : PyStr) :
    pyReplaceGo fuel [] old new = [] := by
  cases fuel <;> rfl

/-- `"_fastqc"` has no nontrivial self-overlap: if it is not a prefix of a
nonempty `s`, it is not a prefix of `s ++ "_fastqc"` either. -/
theorem pat_not_prefix_append (s : PyStr) (hne : s ≠ [])
    (hp : ("_fastqc".data).isPrefixOf s = false) :
    ("_fastqc".data).isPrefixOf (s ++ "_fastqc".data) = false := by
  by_contra hq
  rw [Bool.not_eq_false] at hq
  have hpre := List.isPrefixOf_iff_prefix.mp hq
  have hlen7 : ("_fastqc".data).length = 7 := rfl
  have he := List.prefix_iff_eq_take.mp hpre
  rw [hlen7, List.take_append_eq_append_take] at he
  by_cases hlen : 7 ≤ s.length
  · rw [Nat.sub_eq_zero_of_le hlen] at he
    simp only [List.take_zero, List.append_nil] at he
    have hpt : ("_fastqc".data).isPrefixOf s = true := by
      rw [List.isPrefixOf_iff_prefix, List.prefix_iff_eq_take, hlen7]
      exact he
    rw [hpt] at hp
    exact absurd hp (by simp)
  · push_neg at hlen
    have hn1 : 1 ≤ s.length := List.length_pos.mpr hne
    have hs_take : List.take 7 s = s := List.take_of_length_le (le_of_lt hlen)
    rw [hs_take] at he
    have hs_eq : List.take s.length ("_fastqc".data) = s := by
      have hcong := congrArg (List.take s.length) he
      rw [List.take_append_eq_append_take, Nat.sub_self, List.take_zero,
        List.append_nil, List.take_of_length_le (le_refl s.length)] at hcong
      exact hcong
    obtain ⟨n, hn⟩ : ∃ n, s.length = n := ⟨s.length, rfl⟩
    rw [hn] at hn1 hlen hs_eq he
    rw [← hs_eq] at he
    interval_cases n <;> exact absurd he (by decide)

/-- Replacing `"_fastqc"` by the empty string in `s ++ "_fastqc"`, when
`"_fastqc"` does not occur in `s`, strips exactly the trailing copy. -/
theorem pyReplaceGo_strip (s : PyStr) (h : hasOcc ("_fastqc".data) s = false) :
    ∀ fuel, (s ++ "_fastqc".data).length ≤ fuel →
      pyReplaceGo fuel (s ++ "_fastqc".data) ("_fastqc".data) [] = s := by
  induction s with
  | nil =>
    intro fuel hf
    rw [List.nil_append]
    cases fuel with
    | zero => simp at hf
    | succ f =>
      simp only [pyReplaceGo]
      rw [if_pos (by decide)]
      simp [pyReplaceGo_nil]
  | cons c s' ih =>
    intro fuel hf
    rw [hasOcc] at h
    have hp := (Bool.or_eq_false_iff.mp h).1
    have hr := (Bool.or_eq_false_iff.mp h).2
    cases fuel with
    | zero => simp at hf
    | succ f =>
      have hnp := pat_not_prefix_append (c :: s') (by simp) hp
      rw [List.cons_append]
      simp only [pyReplaceGo]
      rw [List.cons_append] at hnp
      rw [hnp]
      simp only [Bool.and_false, Bool.false_eq_true, if_false]
      have hlb : (s' ++ "_fastqc".data).length ≤ f := by
        rw [List.cons_append, List.length_cons] at hf
        omega
      rw [ih hr f hlb]

/-! ## Claim theorems: the report parser -/

/-- C1 counterexample: an archive whose report has a `Total Sequences` line
with a present but malformed integer field makes `parse_fastqc_zip` raise a
`ValueError` instead of returning with the metric absent. -/
theorem C1_counterexample :
    parse_fastqc_zip ⟨"sample_fastqc.zip".data,
        [("fastqc_data.txt".data, ["Total Sequences\tabc".data])]⟩
      = .error (.valueError ("invalid literal for int() with base 10".data)) := by
  rfl

/-- C1 (amended): when the stats scan reaches a `Total Sequences` line whose
second tab field is present but not a well-formed integer (or a `%GC` line
whose second field is not a well-formed float), `parse_fastqc_zip` raises —
extraction fails instead of leaving the metric absent. -/
theorem C1_amended_raises (z : ZipFile) (name : PyStr) (rest : List PyStr)
    (hd : dataFileNames z = name :: rest)
    (pre : List PyStr) (bad : PyStr) (post : List PyStr)
    (hlines : entryLines z name = pre ++ bad :: post)
    (st : Option Int × Option ℚ) (hpre : statsPass (none, none) pre = .ok st)
    (hcase :
      (pyStartsWith (pyStrip bad) ("Total Sequences".data) = true ∧
        1 < (splitTab (pyStrip bad)).length ∧
        pyInt? ((splitTab (pyStrip bad)).getD 1 []) = none) ∨
      (pyStartsWith (pyStrip bad) ("Total Sequences".data) = false ∧
        pyStartsWith (pyStrip bad) ("%GC".data) = true ∧
        1 < (splitTab (pyStrip bad)).length ∧
        pyFloat? ((splitTab (pyStrip bad)).getD 1 []) = none)) :
    (parse_fastqc_zip z).isOk = false := by
  have hline : ∃ e, statsLine st bad = .error e := by
    rcases hcase with ⟨h1, h2, h3⟩ | ⟨h1, h2, h3, h4⟩
    · rw [List.getD_eq_getElem _ _ h2] at h3
      exact ⟨PyError.valueError ("invalid literal for int() with base 10".data),
        by simp [statsLine, h1, h2, h3]⟩
    · rw [List.getD_eq_getElem _ _ h3] at h4
      exact ⟨PyError.valueError ("could not convert string to float".data),
        by simp [statsLine, h1, h2, h3, h4]⟩
  rcases hline with ⟨e, he⟩
  simp only [parse_fastqc_zip]
  rw [hd]
  dsimp only
  rw [hlines, statsPass_append, hpre]
  simp [statsPass, he, Except.isOk, Except.toBool]

/-- Witness for the amended C1 on a concrete archive, exercising the `%GC`
branch after a well-formed `Total Sequences` line. -/
theorem C1_witness :
    (parse_fastqc_zip ⟨"g_fastqc.zip".data,
        [("fastqc_data.txt".data,
          ["Total Sequences\t5".data, "%GC\txyz".data])]⟩).isOk = false := by
  exact C1_amended_raises
    ⟨"g_fastqc.zip".data,
      [("fastqc_data.txt".data, ["Total Sequences\t5".data, "%GC\txyz".data])]⟩
    ("fastqc_data.txt".data) [] rfl
    ["Total Sequences\t5".data] ("%GC\txyz".data) [] rfl
    (some 5, none) rfl
    (Or.inr ⟨by decide, by decide, by decide, by decide⟩)

/-- C3 counterexample: this archive contains a `fastqc_data.txt` entry, yet
`parse_fastqc_zip` does not return a record at all (the malformed `%GC` field
raises first), so "returns a record whose adapter_content_max is present"
fails as a statement about every such archive. -/
theorem C3_counterexample :
    dataFileNames ⟨"t_fastqc.zip".data,
        [("fastqc_data.txt".data, ["%GC\tfifty".data])]⟩
      = ["fastqc_data.txt".data] ∧
    (parse_fastqc_zip ⟨"t_fastqc.zip".data,
        [("fastqc_data.txt".data, ["%GC\tfifty".data])]⟩).isOk = false := by
  exact ⟨rfl, rfl⟩

/-- C3 (amended): whenever the archive has a `fastqc_data.txt` entry and
extraction returns a record, that record's `adapter_content_max` is present
and equals the maximum of `0.0` and every float parsed from the data rows of
the adapter section; in particular it is `0.0` when the section is missing,
empty, or contains no numeric values. -/
theorem C3_amended_adapter_max (z : ZipFile) (name : PyStr) (rest : List PyStr)
    (hd : dataFileNames z = name :: rest) (m : Metrics)
    (h : parse_fastqc_zip z = .ok m) :
    m.adapter_content_max = some (adapterSpecMax (entryLines z name)) ∧
    (sectionFloats (entryLines z name) = [] → m.adapter_content_max = some 0) := by
  have hmain : m.adapter_content_max
      = some (adapterPass false 0 (entryLines z name)) := by
    simp only [parse_fastqc_zip] at h
    rw [hd] at h
    dsimp only at h
    cases hs : statsPass (none, none) (entryLines z name) with
    | error e => rw [hs] at h; exact absurd h (by simp)
    | ok st =>
      rw [hs] at h
      obtain rfl := (Except.ok.inj h).symm
      rfl
  have hspec : adapterPass false 0 (entryLines z name)
      = adapterSpecMax (entryLines z name) := by
    rw [adapterPass_false]
    rfl
  constructor
  · rw [hmain, hspec]
  · intro h0
    rw [hmain, hspec]
    unfold adapterSpecMax
    rw [h0]
    rfl

/-- Witness for the amended C3: a concrete report whose adapter section peaks
at `2.5` (the rational `5/2`). -/
theorem C3_witness :
    (⟨"w".data, some 100, some 50, none, some (Rat.divInt 5 2)⟩ : Metrics).adapter_content_max
        = some (adapterSpecMax (entryLines
            ⟨"w_fastqc.zip".data,
              [("fastqc_data.txt".data,
                ["Total Sequences\t100".data, "%GC\t50.0".data,
                 ">>Adapter Content\tpass".data, "#Position\tAdapter".data,
                 "1\t2.5\tx".data, ">>END_MODULE".data])]⟩
            ("fastqc_data.txt".data))) ∧
    adapterSpecMax (entryLines
        ⟨"w_fastqc.zip".data,
          [("fastqc_data.txt".data,
            ["Total Sequences\t100".data, "%GC\t50.0".data,
             ">>Adapter Content\tpass".data, "#Position\tAdapter".data,
             "1\t2.5\tx".data, ">>END_MODULE".data])]⟩
        ("fastqc_data.txt".data)) = (Rat.divInt 5 2) := by
  refine ⟨(C3_amended_adapter_max
      ⟨"w_fastqc.zip".data,
        [("fastqc_data.txt".data,
          ["Total Sequences\t100".data, "%GC\t50.0".data,
           ">>Adapter Content\tpass".data, "#Position\tAdapter".data,
           "1\t2.5\tx".data, ">>END_MODULE".data])]⟩
      ("fastqc_data.txt".data) [] rfl
      ⟨"w".data, some 100, some 50, none, some (Rat.divInt 5 2)⟩ ?_).1, ?_⟩
  · decide
  · decide

/-- C8 counterexample: for the archive `sample_fastqc_1.zip` the code removes
the interior `_fastqc` (yielding `sample_1`), while stripping `_fastqc` only
from the end of the stem would leave `sample_fastqc_1` — so the identifier is
not "the stem with the suffix stripped from its end and nothing else
changed". -/
theorem C8_counterexample :
    parse_fastqc_zip ⟨"sample_fastqc_1.zip".data, []⟩
        = .ok ⟨"sample_1".data, none, none, none, none⟩ ∧
    stripTrailingSuffix (pathStem ("sample_fastqc_1.zip".data)) ("_fastqc".data)
        = "sample_fastqc_1".data ∧
    "sample_1".data ≠ "sample_fastqc_1".data := by
  refine ⟨rfl, rfl, by decide⟩

/-- C8 (amended): the sample identifier is the archive stem with every
occurrence of `_fastqc` removed (leftmost, non-overlapping), not only a
trailing one; when `_fastqc` occurs nowhere in `s`, an archive stem
`s ++ "_fastqc"` still yields exactly `s`, matching the spec's
`sampleA_fastqc.zip ↦ sampleA` example. -/
theorem C8_amended_replace_all :
    (∀ (z : ZipFile) (m : Metrics), parse_fastqc_zip z = .ok m →
        m.sample = pyReplace (pathStem z.filename) ("_fastqc".data) []) ∧
    (∀ s : PyStr, hasOcc ("_fastqc".data) s = false →
        pyReplace (s ++ "_fastqc".data) ("_fastqc".data) [] = s) := by
  constructor
  · intro z m h
    simp only [parse_fastqc_zip] at h
    cases hd : dataFileNames z with
    | nil =>
      rw [hd] at h
      obtain rfl := (Except.ok.inj h).symm
      rfl
    | cons name rest =>
      rw [hd] at h
      dsimp only at h
      cases hs : statsPass (none, none) (entryLines z name) with
      | error e => rw [hs] at h; exact absurd h (by simp)
      | ok st =>
        rw [hs] at h
        obtain rfl := (Except.ok.inj h).symm
        rfl
  · intro s h
    unfold pyReplace
    exact pyReplaceGo_strip s h _ (le_refl _)

/-- Witness for the amended C8: `sampleA_fastqc.zip` yields exactly
`sampleA`. -/
theorem C8_witness :
    pyReplace ("sampleA".data ++ "_fastqc".data) ("_fastqc".data) []
        = "sampleA".data ∧
    parse_fastqc_zip ⟨"sampleA_fastqc.zip".data, []⟩
        = .ok ⟨"sampleA".data, none, none, none, none⟩ := by
  constructor
  · exact C8_amended_replace_all.2 ("sampleA".data) (by decide)
  · have h := C8_amended_replace_all.1
    decide

/-- C9: an archive with no entry named `…fastqc_data.txt` parses without
error to a record whose identifier is populated and whose four numeric fields
are all absent; and the batch loop of `main` skips such an archive entirely,
so it contributes nothing to the results mapping. -/
theorem C9_no_report_entry (z : ZipFile)
    (h : ∀ e ∈ z.entries, pyEndsWith e.1 ("fastqc_data.txt".data) = false) :
    parse_fastqc_zip z
      = .ok ⟨pyReplace (pathStem z.filename) ("_fastqc".data) [],
             none, none, none, none⟩ ∧
    ∀ t pre post res,
        processZips t (pre ++ z :: post) res = processZips t (pre ++ post) res := by
  have hdf : dataFileNames z = [] := by
    unfold dataFileNames
    rw [List.filter_eq_nil_iff]
    intro a ha
    rcases List.mem_map.mp ha with ⟨e, he, rfl⟩
    simp [h e he]
  have hparse : parse_fastqc_zip z
      = .ok ⟨pyReplace (pathStem z.filename) ("_fastqc".data) [],
             none, none, none, none⟩ := by
    simp only [parse_fastqc_zip]
    rw [hdf]
  refine ⟨hparse, ?_⟩
  intro t pre post res
  induction pre generalizing res with
  | nil =>
    simp only [List.nil_append, processZips, hparse, Option.isNone_none, if_true]
  | cons p pre ih =>
    simp only [List.cons_append, processZips]
    cases hp : parse_fastqc_zip p with
    | error e => rfl
    | ok m =>
      by_cases hn : m.total_sequences.isNone = true
      · simp only [hn, if_true]
        exact ih res
      · simp only [hn, Bool.false_eq_true, if_false]
        exact ih _

/-- Witness for C9: a concrete archive holding only a `summary.txt` entry is
parsed to an all-absent record and is dropped by the batch loop. -/
theorem C9_witness :
    parse_fastqc_zip ⟨"noreport_fastqc.zip".data, [("summary.txt".data, ["ok".data])]⟩
        = .ok ⟨pyReplace (pathStem ("noreport_fastqc.zip".data)) ("_fastqc".data) [],
               none, none, none, none⟩ ∧
    processZips ⟨some 10000, some 80, some 5, some 30, some 70⟩
        [⟨"noreport_fastqc.zip".data, [("summary.txt".data, ["ok".data])]⟩] []
      = .ok [] := by
  have h := C9_no_report_entry
    ⟨"noreport_fastqc.zip".data, [("summary.txt".data, ["ok".data])]⟩ (by decide)
  refine ⟨h.1, ?_⟩
  have h2 := h.2 ⟨some 10000, some 80, some 5, some 30, some 70⟩ [] [] []
  simpa using h2

/-! ## Claim theorems: configuration loading -/

/-- C6: loading from a nonexistent path fails with the `FileNotFoundError`
kind carrying the documented message — never with the missing-section kind;
loading an existing file without a `[thresholds]` section fails with the
`ValueError` kind and the missing-section message; and the two kinds are
distinguishable. -/
theorem C6_load_error_kinds :
    (∀ (path : PyStr) (fs : PyStr → Option ConfigFile), fs path = none →
        load_thresholds path fs
          = .error (.fileNotFound ("Config file not found: ".data ++ path))) ∧
    (∀ (path : PyStr) (fs : PyStr → Option ConfigFile) (cfg : ConfigFile),
        fs path = some cfg → sectionOf cfg ("thresholds".data) = none →
        load_thresholds path fs
          = .error (.valueError ("Missing [thresholds] section in config file".data))) ∧
    (∀ a b, PyError.fileNotFound a ≠ PyError.valueError b) := by
  refine ⟨?_, ?_, ?_⟩
  · intro path fs hfs
    simp [load_thresholds, hfs]
  · intro path fs cfg hfs hsec
    simp [load_thresholds, hfs, hsec]
  · intro a b hab
    exact PyError.noConfusion hab

/-- Witness for C6 on a concrete empty filesystem and a one-section file. -/
theorem C6_witness :
    load_thresholds ("conf.ini".data) (fun _ => none)
        = .error (.fileNotFound ("Config file not found: ".data ++ "conf.ini".data)) ∧
    load_thresholds ("conf.ini".data) (fun _ => some [("other".data, [])])
        = .error (.valueError ("Missing [thresholds] section in config file".data)) := by
  constructor
  · exact C6_load_error_kinds.1 ("conf.ini".data) (fun _ => none) rfl
  · exact C6_load_error_kinds.2.1 ("conf.ini".data)
      (fun _ => some [("other".data, [])]) [("other".data, [])] rfl (by decide)

/-- C7: a present `[thresholds]` section containing none of the recognised
keys loads to exactly the five documented defaults, and each key, when absent
individually, independently falls back to its own default in whatever record
a successful load returns. -/
theorem C7_defaults (path : PyStr) (fs : PyStr → Option ConfigFile)
    (cfg : ConfigFile) (sec : List (PyStr × PyStr))
    (hfs : fs path = some cfg)
    (hsec : sectionOf cfg ("thresholds".data) = some sec) :
    ((∀ key ∈ recognizedKeys, sectionGet sec key = none) →
        load_thresholds path fs
          = .ok ⟨some 10000, some 80, some 5, some 30, some 70⟩) ∧
    (∀ t, load_thresholds path fs = .ok t →
        (sectionGet sec ("min_reads".data) = none → t.min_reads = some 10000) ∧
        (sectionGet sec ("min_pct_q30".data) = none → t.min_pct_q30 = some 80) ∧
        (sectionGet sec ("max_adapter_content".data) = none →
            t.max_adapter_content = some 5) ∧
        (sectionGet sec ("min_gc".data) = none → t.min_gc = some 30) ∧
        (sectionGet sec ("max_gc".data) = none → t.max_gc = some 70)) := by
  constructor
  · intro hall
    have h1 : getint sec ("min_reads".data) 10000 = .ok 10000 := by
      simp [getint, hall ("min_reads".data) (by simp [recognizedKeys])]
    have h2 : getfloat sec ("min_pct_q30".data) 80 = .ok 80 := by
      simp [getfloat, hall ("min_pct_q30".data) (by simp [recognizedKeys])]
    have h3 : getfloat sec ("max_adapter_content".data) 5 = .ok 5 := by
      simp [getfloat, hall ("max_adapter_content".data) (by simp [recognizedKeys])]
    have h4 : getfloat sec ("min_gc".data) 30 = .ok 30 := by
      simp [getfloat, hall ("min_gc".data) (by simp [recognizedKeys])]
    have h5 : getfloat sec ("max_gc".data) 70 = .ok 70 := by
      simp [getfloat, hall ("max_gc".data) (by simp [recognizedKeys])]
    simp only [load_thresholds, hfs, hsec]
    rw [h1, h2, h3, h4, h5]
    rfl
  · intro t ht
    simp only [load_thresholds, hfs, hsec] at ht
    cases e1 : getint sec ("min_reads".data) 10000 with
    | error e => rw [e1] at ht; exact absurd ht fun hh => Except.noConfusion hh
    | ok v1 =>
      cases e2 : getfloat sec ("min_pct_q30".data) 80 with
      | error e => rw [e1, e2] at ht; exact absurd ht fun hh => Except.noConfusion hh
      | ok v2 =>
        cases e3 : getfloat sec ("max_adapter_content".data) 5 with
        | error e => rw [e1, e2, e3] at ht; exact absurd ht fun hh => Except.noConfusion hh
        | ok v3 =>
          cases e4 : getfloat sec ("min_gc".data) 30 with
          | error e =>
            rw [e1, e2, e3, e4] at ht; exact absurd ht fun hh => Except.noConfusion hh
          | ok v4 =>
            cases e5 : getfloat sec ("max_gc".data) 70 with
            | error e =>
              rw [e1, e2, e3, e4, e5] at ht
              exact absurd ht fun hh => Except.noConfusion hh
            | ok v5 =>
              rw [e1, e2, e3, e4, e5] at ht
              obtain rfl := (Except.ok.inj ht).symm
              refine ⟨?_, ?_, ?_, ?_, ?_⟩
              · intro hk; simp [getint, hk] at e1; simp [← e1]
              · intro hk; simp [getfloat, hk] at e2; simp [← e2]
              · intro hk; simp [getfloat, hk] at e3; simp [← e3]
              · intro hk; simp [getfloat, hk] at e4; simp [← e4]
              · intro hk; simp [getfloat, hk] at e5; simp [← e5]

/-- Witness for C7: an empty `[thresholds]` section yields the five
defaults. -/
theorem C7_witness :
    load_thresholds ("conf.ini".data)
        (fun _ => some [("thresholds".data, [])])
      = .ok ⟨some 10000, some 80, some 5, some 30, some 70⟩ := by
  exact (C7_defaults ("conf.ini".data) (fun _ => some [("thresholds".data, [])])
    [("thresholds".data, [])] [] rfl (by decide)).1 (by intro k hk; rfl)
